import Mathlib

/-!
# Content-management backend: handlers, auth gate and stack registry

A shallow embedding of the Go handlers of the CMS server
(`internal/handlers`, `internal/middleware`, `internal/models`).

Modelling conventions.

* A MongoDB collection is the list of its documents in natural order.
  `FindOne` is the first match, `Find` the matching sublist, `UpdateOne`
  rewrites the first match, `DeleteOne` removes the first match and
  `InsertOne` appends, refusing a document whose `_id` is already present
  (the duplicate-key error of the unique `_id` index).  Driver failures
  other than these (time-outs, lost connections) are outside the model.
* A request body is given by the result of `json.NewDecoder(r.Body).Decode`:
  `none` is a decoding error, `some v` the decoded value.
* `primitive.NewObjectID()` is an input of the handler that calls it.
-/

namespace Cms

/-! ## ObjectID (`primitive.ObjectID`, a `[12]byte`) -/

/-- A BSON object identifier: twelve bytes. -/
structure ObjectID where
  bytes : List (Fin 256)
  size : bytes.length = 12
deriving DecidableEq

/-- The object identifier whose twelve bytes are the big-endian digits of `n`. -/
def ObjectID.ofNat (n : Nat) : ObjectID :=
  ⟨[Fin.ofNat (n / 256 ^ 11), Fin.ofNat (n / 256 ^ 10), Fin.ofNat (n / 256 ^ 9),
    Fin.ofNat (n / 256 ^ 8), Fin.ofNat (n / 256 ^ 7), Fin.ofNat (n / 256 ^ 6),
    Fin.ofNat (n / 256 ^ 5), Fin.ofNat (n / 256 ^ 4), Fin.ofNat (n / 256 ^ 3),
    Fin.ofNat (n / 256 ^ 2), Fin.ofNat (n / 256), Fin.ofNat n], rfl⟩

/-- The zero value `primitive.NilObjectID`. -/
def NilObjectID : ObjectID := ObjectID.ofNat 0

/-- `ObjectID.IsZero`. -/
def ObjectID.IsZero (id : ObjectID) : Bool := id == NilObjectID

/-- One lower-case hexadecimal digit (`hex.EncodeToString` alphabet). -/
def hexDigit (n : Fin 16) : Char :=
  "0123456789abcdef".data.getD n.val '0'

/-- Value of a hexadecimal digit, either case (`encoding/hex.fromHexChar`). -/
def fromHexChar (c : Char) : Option (Fin 16) :=
  if 48 ≤ c.toNat ∧ c.toNat ≤ 57 then some (Fin.ofNat (c.toNat - 48))
  else if 97 ≤ c.toNat ∧ c.toNat ≤ 102 then some (Fin.ofNat (c.toNat - 97 + 10))
  else if 65 ≤ c.toNat ∧ c.toNat ≤ 70 then some (Fin.ofNat (c.toNat - 65 + 10))
  else none

/-- The two hexadecimal digits of one byte. -/
def encodeByte (b : Fin 256) : List Char :=
  [hexDigit (Fin.ofNat (b.val / 16)), hexDigit (Fin.ofNat (b.val % 16))]

/-- `hex.EncodeToString` on a byte list, as a character list. -/
def encodeHex (bs : List (Fin 256)) : List Char :=
  bs.flatMap encodeByte

/-- `hex.DecodeString` on a character list: fails on an odd length or on a
character that is not a hexadecimal digit. -/
def decodeHex : List Char → Option (List (Fin 256))
  | [] => some []
  | [_] => none
  | a :: b :: rest =>
    match fromHexChar a, fromHexChar b, decodeHex rest with
    | some h, some l, some bs => some (Fin.ofNat (h.val * 16 + l.val) :: bs)
    | _, _, _ => none

/-- `ObjectID.Hex`: the 24-character lower-case hexadecimal form. -/
def ObjectID.Hex (id : ObjectID) : String :=
  String.mk (encodeHex id.bytes)

/-- `primitive.ObjectIDFromHex`: `none` stands for the returned error. -/
def ObjectIDFromHex (s : String) : Option ObjectID :=
  match decodeHex s.data with
  | some bs => if h : bs.length = 12 then some ⟨bs, h⟩ else none
  | none => none

/-! ## Models (`internal/models/content.go`) -/

/-- `models.Stack`. -/
structure Stack where
  ID : ObjectID
  Name : String
  Color : String
deriving DecidableEq

/-- `models.Content`.  A nil and an empty `Stack` slice are identified. -/
structure Content where
  ID : ObjectID
  UserID : String
  Name : String
  Description : String
  Url : String
  ImgUrl : String
  Stack : List Stack
deriving DecidableEq

/-- Modelled from the spec: `models.User` is declared in a file that is not
part of the sources at hand.  The spec gives a user a unique identifier, a
username, an email and a salted one-way password hash; the handlers use the
fields `ID`, `Username`, `Email` and `Password`, and insert a user without
an identifier, which the driver then generates. -/
structure User where
  ID : ObjectID
  Username : String
  Email : String
  Password : String
deriving DecidableEq

/-! ## The persistence layer -/

/-- The three collections of the database. -/
structure DB where
  userColl : List User
  stackColl : List Stack
  contentColl : List Content
deriving DecidableEq

deriving instance DecidableEq for Except

/-- `Collection.UpdateOne`: apply `f` to the first document matching `p`. -/
def updateOne {α : Type} (p : α → Bool) (f : α → α) : List α → List α
  | [] => []
  | x :: xs => if p x then f x :: xs else x :: updateOne p f xs

/-- `Collection.InsertOne`: the document is stored under `id`; a document
whose `_id` is already in the collection is refused. -/
def insertOne {α : Type} (key : α → ObjectID) (coll : List α) (doc : α) :
    Except String (List α) :=
  if (coll.map key).contains (key doc) then .error "duplicate key"
  else .ok (coll ++ [doc])

/-- The `_id` index of a collection holds each identifier once. -/
def UniqueIDs {α : Type} (key : α → ObjectID) (coll : List α) : Prop :=
  (coll.map key).Nodup

/-! ## Session tokens (`github.com/dgrijalva/jwt-go`)

A compact token is kept as its three decoded segments; the payload is the
JSON value of the claims.  The keyed hash is a parameter `hmac`. -/

/-- A JSON value of a member of a token payload: `null`, a string, a number
written as an integer (of any size), or anything else (a boolean, a number
with a fraction or an exponent, an array, an object). -/
inductive JVal where
  | null
  | str (s : String)
  | num (n : Int)
  | other
deriving DecidableEq

/-- The members of a JSON object, in the order of the document; a key may
occur more than once. -/
abbrev Payload := List (String × JVal)

/-- The JSON value the decoder reads from the payload segment (the first
value in it): an object, `null`, or anything else. -/
inductive ClaimsJSON where
  | object (members : Payload)
  | null
  | other
deriving DecidableEq

/-- The value of a cookie that is expected to hold a token: text that does
not split into three segments with a decodable header and payload; or a
header that names no algorithm, with the payload; or the header's `alg`, the
payload and the signature (`none` when the signature segment does not
decode). -/
inductive TokenString where
  | malformed (raw : String)
  | noAlg (payload : ClaimsJSON)
  | compact (alg : String) (payload : ClaimsJSON) (signature : Option Nat)
deriving DecidableEq

/-- A keyed hash: algorithm name, key, signing input (header and payload). -/
abbrev Hmac := String → String → String × ClaimsJSON → Nat

/-- `jwt.StandardClaims`; the times are Unix seconds, zero meaning unset. -/
structure StandardClaims where
  Audience : String := ""
  ExpiresAt : Int := 0
  Id : String := ""
  IssuedAt : Int := 0
  Issuer : String := ""
  NotBefore : Int := 0
  Subject : String := ""
deriving DecidableEq

/-- `Claims`, declared with the same fields and JSON tags in the packages
`handlers` and `middleware`. -/
structure Claims where
  UserID : String := ""
  Username : String := ""
  StandardClaims : StandardClaims := {}
deriving DecidableEq

/-- The flags of a `jwt.ValidationError`. -/
structure ValidationError where
  Malformed : Bool := false
  Unverifiable : Bool := false
  SignatureInvalid : Bool := false
  Expired : Bool := false
  IssuedAt : Bool := false
  NotValidYet : Bool := false
deriving DecidableEq

/-- `ValidationError.valid`: no flag is set. -/
def ValidationError.valid (e : ValidationError) : Bool :=
  !(e.Malformed || e.Unverifiable || e.SignatureInvalid || e.Expired || e.IssuedAt
    || e.NotValidYet)

/-- `jwt.Token` as returned by the parser. -/
structure Token where
  Claims : Claims
  Valid : Bool
deriving DecidableEq

/-- `time.Time.Unix` of a time given in nanoseconds since the Unix epoch. -/
def Unix (t : Nat) : Int := ((t / 1000000000 : Nat) : Int)

/-- `24 * time.Hour` in nanoseconds. -/
def day : Nat := 24 * 3600 * 1000000000

/-- String field with `omitempty`. -/
def omitStr (key : String) (v : String) : Payload :=
  if v = "" then [] else [(key, .str v)]

/-- Integer field with `omitempty`. -/
def omitNum (key : String) (v : Int) : Payload :=
  if v = 0 then [] else [(key, .num v)]

/-- `json.Marshal` of `handlers.Claims`, following the JSON tags. -/
def marshalClaims (c : Claims) : Payload :=
  ("user_id", .str c.UserID) :: ("username", .str c.Username) ::
    (omitStr "aud" c.StandardClaims.Audience ++
    (omitNum "exp" c.StandardClaims.ExpiresAt ++
    (omitStr "jti" c.StandardClaims.Id ++
    (omitNum "iat" c.StandardClaims.IssuedAt ++
    (omitStr "iss" c.StandardClaims.Issuer ++
    (omitNum "nbf" c.StandardClaims.NotBefore ++
    (omitStr "sub" c.StandardClaims.Subject ++ [])))))))

/-- The code point `encoding/json` folds a character of a key to when it
looks for the field of a key without regard to case: a lower-case ASCII
letter goes to its capital, the long s (U+017F) to `S`, the Kelvin sign
(U+212A) to `K`.  (Other characters outside ASCII, which never fold to an
ASCII character, are left as they are.) -/
def foldRune (c : Char) : Nat :=
  if 97 ≤ c.toNat ∧ c.toNat ≤ 122 then c.toNat - 32
  else if c.toNat = 383 then 83
  else if c.toNat = 8490 then 75
  else c.toNat

/-- The folded form of a key or of a field name. -/
def foldName (s : String) : List Nat :=
  s.data.map foldRune

/-- What storing one JSON value in a field does: leave the field (for
`null`), set it, or record a type error. -/
inductive Store (α : Type) where
  | keep
  | set (a : α)
  | typeError
deriving DecidableEq

/-- Storing a JSON value in a `string` field. -/
def storeStr : JVal → Store String
  | .null => .keep
  | .str s => .set s
  | .num _ => .typeError
  | .other => .typeError

/-- Storing a JSON value in an `int64` field: a number must be written as
an integer and fit 64 bits. -/
def storeInt64 : JVal → Store Int
  | .null => .keep
  | .num n => if -(2 ^ 63) ≤ n ∧ n < 2 ^ 63 then .set n else .typeError
  | .str _ => .typeError
  | .other => .typeError

/-- The value a field ends with after the members of the object are gone
through in order: every member whose key folds to the folded name of the
field is stored in it, so that the last one wins; a type error in any of
them makes the decoding fail. -/
def scanField {α : Type} (store : JVal → Store α) (name : String) : Payload → α → Option α
  | [], acc => some acc
  | (k, v) :: rest, acc =>
    if foldName k = foldName name then
      match store v with
      | .keep => scanField store name rest acc
      | .set a => scanField store name rest a
      | .typeError => none
    else scanField store name rest acc

/-- Read a string field from the members of an object. -/
def getStr (p : Payload) (key : String) : Option String :=
  scanField storeStr key p ""

/-- Read an `int64` field from the members of an object. -/
def getNum (p : Payload) (key : String) : Option Int :=
  scanField storeInt64 key p 0

/-- `json.Unmarshal` of an object into `middleware.Claims`, following the
JSON tags. -/
def unmarshalObject (p : Payload) : Option Claims := do
  let uid ← getStr p "user_id"
  let uname ← getStr p "username"
  let aud ← getStr p "aud"
  let exp ← getNum p "exp"
  let jti ← getStr p "jti"
  let iat ← getNum p "iat"
  let iss ← getStr p "iss"
  let nbf ← getNum p "nbf"
  let sub ← getStr p "sub"
  pure { UserID := uid, Username := uname,
         StandardClaims := { Audience := aud, ExpiresAt := exp, Id := jti, IssuedAt := iat,
                             Issuer := iss, NotBefore := nbf, Subject := sub } }

/-- The decoding of the payload segment into `middleware.Claims`: `null`
leaves the claims at their zero value, a value that is neither an object nor
`null` is an error. -/
def unmarshalClaims : ClaimsJSON → Option Claims
  | .object p => unmarshalObject p
  | .null => some {}
  | .other => none

/-- `verifyExp` with `required = false`. -/
def verifyExp (exp now : Int) : Bool :=
  if exp = 0 then true else decide (now ≤ exp)

/-- `verifyIat` with `required = false`. -/
def verifyIat (iat now : Int) : Bool :=
  if iat = 0 then true else decide (now ≥ iat)

/-- `verifyNbf` with `required = false`. -/
def verifyNbf (nbf now : Int) : Bool :=
  if nbf = 0 then true else decide (now ≥ nbf)

/-- `StandardClaims.Valid` at the Unix time `now`: the flags it raises. -/
def StandardClaims.Valid (c : StandardClaims) (now : Int) : ValidationError :=
  { Expired := !verifyExp c.ExpiresAt now,
    IssuedAt := !verifyIat c.IssuedAt now,
    NotValidYet := !verifyNbf c.NotBefore now }

/-- The signing methods that accept a byte-slice key. -/
def hmacMethods : List String := ["HS256", "HS384", "HS512"]

/-- Every signing method the library registers. -/
def registeredMethods : List String :=
  hmacMethods ++ ["RS256", "RS384", "RS512", "ES256", "ES384", "ES512",
                  "PS256", "PS384", "PS512", "none"]

/-- `Token.SignedString` for `jwt.NewWithClaims(jwt.SigningMethodHS256, claims)`. -/
def SignedString (hmac : Hmac) (claims : Claims) (key : String) : TokenString :=
  let payload := ClaimsJSON.object (marshalClaims claims)
  .compact "HS256" payload (some (hmac "HS256" key ("HS256", payload)))

/-- `jwt.ParseWithClaims` with a key function that returns `key`, run at the
time `now` (nanoseconds).  The token comes back together with the error. -/
def ParseWithClaims (hmac : Hmac) (now : Nat) (tokenString : TokenString) (key : String) :
    Token × Option ValidationError :=
  match tokenString with
  | .malformed _ => (⟨{}, false⟩, some { Malformed := true })
  | .noAlg payload =>
    match unmarshalClaims payload with
    | none => (⟨{}, false⟩, some { Malformed := true })
    | some claims => (⟨claims, false⟩, some { Unverifiable := true })
  | .compact alg payload signature =>
    match unmarshalClaims payload with
    | none => (⟨{}, false⟩, some { Malformed := true })
    | some claims =>
      if !registeredMethods.contains alg then (⟨claims, false⟩, some { Unverifiable := true })
      else
      let vErr := claims.StandardClaims.Valid (Unix now)
      let vErr := if hmacMethods.contains alg && some (hmac alg key (alg, payload)) == signature
        then vErr else { vErr with SignatureInvalid := true }
      if vErr.valid then (⟨claims, true⟩, none) else (⟨claims, false⟩, some vErr)

/-! ## Requests and responses -/

/-- What a handler writes as the body of its response. -/
inductive Body where
  | empty
  | text (s : String)
  | json (key value : String)
  | stack (s : Stack)
  | stackList (l : List Stack)
  | contentList (l : List Content)
deriving DecidableEq

/-- A cookie set by `http.SetCookie`; `Expires` is in nanoseconds since the
Unix epoch. -/
structure Cookie where
  Name : String
  Value : TokenString
  Expires : Option Nat := none
deriving DecidableEq

/-- Status code, body and cookie of a response. -/
structure Response where
  status : Nat
  body : Body
  cookie : Option Cookie := none
deriving DecidableEq

def StatusOK : Nat := 200
def StatusCreated : Nat := 201
def StatusBadRequest : Nat := 400
def StatusUnauthorized : Nat := 401
def StatusNotFound : Nat := 404
def StatusConflict : Nat := 409
def StatusInternalServerError : Nat := 500

/-- `handleError`: the status code and the JSON object with the one member
`error`. -/
def handleError (message : String) (statusCode : Nat) : Response :=
  { status := statusCode, body := .json "error" message }

/-- `http.Error`: the status code and the message as a line of plain text. -/
def httpError (message : String) (statusCode : Nat) : Response :=
  { status := statusCode, body := .text (message ++ "\n") }

/-- The error of `Request.Cookie`. -/
inductive CookieError where
  | ErrNoCookie
  | other (msg : String)
deriving DecidableEq

/-- The parts of an `http.Request` the handlers read: the result of
`r.Cookie("token")`, the context value under the key `userID` when it is a
string, the path variable `id`, and the decoded body. -/
structure Request (β : Type) where
  cookie : Except CookieError Cookie := .error .ErrNoCookie
  ctxUserID : Option String := none
  id : String := ""
  body : Option β := none

/-- A handler reads the request and the database and yields a response and
the database it leaves. -/
abbrev Handler (β : Type) := Request β → DB → Response × DB

/-- `getUserIDFromContext`. -/
def getUserIDFromContext {β : Type} (r : Request β) : Option String :=
  r.ctxUserID

/-! ## Content handlers (`internal/handlers/content_handler.go`) -/

/-- The document stored by `InsertOne`: a zero `_id` is omitted (`omitempty`)
and replaced by the identifier the driver generates. -/
def Content.withID (gen : ObjectID) (c : Content) : Content :=
  if c.ID.IsZero then { c with ID := gen } else c

/-- `createContent`: insert into the `contents` collection. -/
def createContent (gen : ObjectID) (coll : List Content) (content : Content) :
    Except String (List Content) :=
  insertOne Content.ID coll (content.withID gen)

/-- `fetchContents`: the documents selected by the filter. -/
def fetchContents (coll : List Content) (filter : Content → Bool) : List Content :=
  coll.filter filter

/-- `fetchStacks`.  A nil slice is `none`: it is encoded as `null`, for which
the server refuses the query with `$in` (the text of that error is
indicative). -/
def fetchStacks (coll : List Stack) (stackNames : Option (List String)) :
    Except String (List Stack) :=
  match stackNames with
  | none => .error "(BadValue) $in needs an array"
  | some names =>
    let stackDetails := coll.filter (fun s => names.contains s.Name)
    if stackDetails.length != names.length then .error "one or more stacks not found"
    else .ok stackDetails

/-- The request body of `CreateContentHandler`. -/
structure CreateContentBody where
  Name : String := ""
  Description : String := ""
  Url : String := ""
  ImgUrl : String := ""
  Stack : Option (List String) := none
deriving DecidableEq

/-- `CreateContentHandler`; `gen` is the identifier the driver generates for
the inserted document. -/
def CreateContentHandler (gen : ObjectID) : Handler CreateContentBody := fun r db =>
  match getUserIDFromContext r with
  | none => (handleError "Unable to retrieve user ID" StatusInternalServerError, db)
  | some userID =>
    match r.body with
    | none => (handleError "Invalid request" StatusBadRequest, db)
    | some requestBody =>
      match fetchStacks db.stackColl requestBody.Stack with
      | .error err => (handleError err StatusBadRequest, db)
      | .ok stackDetails =>
        let content : Content :=
          { ID := NilObjectID, UserID := userID, Name := requestBody.Name,
            Description := requestBody.Description, Url := requestBody.Url,
            ImgUrl := requestBody.ImgUrl, Stack := stackDetails }
        match createContent gen db.contentColl content with
        | .error _ => (handleError "Error creating content" StatusInternalServerError, db)
        | .ok coll =>
          ({ status := StatusCreated, body := .json "message" "Content created successfully" },
           { db with contentColl := coll })

/-- `GetContentHandler`: the caller's content. -/
def GetContentHandler {β : Type} : Handler β := fun r db =>
  match getUserIDFromContext r with
  | none => (handleError "Unable to retrieve user ID" StatusInternalServerError, db)
  | some userID =>
    ({ status := StatusOK,
       body := .contentList (fetchContents db.contentColl (fun c => c.UserID == userID)) }, db)

/-- `GetContentsHandler`: all content. -/
def GetContentsHandler {β : Type} : Handler β := fun _ db =>
  ({ status := StatusOK, body := .contentList (fetchContents db.contentColl (fun _ => true)) }, db)

/-- The filter on `_id` and `user_id` of the edit and delete handlers. -/
def ownerFilter (objectID : ObjectID) (userID : String) (c : Content) : Bool :=
  c.ID == objectID && c.UserID == userID

/-- The `$set` update of `EditContentHandler`. -/
def setContent (updatedContent : Content) (c : Content) : Content :=
  { c with Name := updatedContent.Name, Url := updatedContent.Url,
           ImgUrl := updatedContent.ImgUrl, Stack := updatedContent.Stack }

/-- `EditContentHandler`. -/
def EditContentHandler : Handler Content := fun r db =>
  match getUserIDFromContext r with
  | none => (handleError "Unable to retrieve user ID" StatusInternalServerError, db)
  | some userID =>
    match ObjectIDFromHex r.id with
    | none => (handleError "Invalid content ID" StatusBadRequest, db)
    | some objectID =>
      match db.contentColl.find? (ownerFilter objectID userID) with
      | none => (handleError "Content not found or unauthorized" StatusNotFound, db)
      | some _ =>
        match r.body with
        | none => (handleError "Invalid request body" StatusBadRequest, db)
        | some updatedContent =>
          let coll := updateOne (ownerFilter objectID userID) (setContent updatedContent)
            db.contentColl
          ({ status := StatusOK, body := .text "Content updated successfully" },
           { db with contentColl := coll })

/-- `DeleteContentHandler`. -/
def DeleteContentHandler {β : Type} : Handler β := fun r db =>
  match getUserIDFromContext r with
  | none => (handleError "Unable to retrieve user ID" StatusInternalServerError, db)
  | some userID =>
    match ObjectIDFromHex r.id with
    | none => (handleError "Invalid content ID" StatusBadRequest, db)
    | some objectID =>
      match db.contentColl.find? (ownerFilter objectID userID) with
      | none => (handleError "Content not found or unauthorized" StatusNotFound, db)
      | some _ =>
        ({ status := StatusOK, body := .text "Content deleted successfully" },
         { db with contentColl := db.contentColl.eraseP (ownerFilter objectID userID) })

/-! ## Stack handlers (`internal/handlers/stack_handler.go`) -/

/-- `CreateStackHandler`; `newID` is the value of `primitive.NewObjectID()`,
which is never the zero identifier, so that `omitempty` does not apply. -/
def CreateStackHandler (newID : ObjectID) : Handler Stack := fun r db =>
  match r.body with
  | none => (httpError "Invalid request body" StatusBadRequest, db)
  | some stack =>
    if stack.Name == "" || stack.Color == "" then
      (httpError "Invalid request body" StatusBadRequest, db)
    else
      match db.stackColl.find? (fun s => s.Name == stack.Name) with
      | some _ =>
        ({ status := StatusConflict,
           body := .json "message" "Stack with the same name already exists" }, db)
      | none =>
        let stack := { stack with ID := newID }
        match insertOne Stack.ID db.stackColl stack with
        | .error _ => (httpError "Error inserting stack" StatusInternalServerError, db)
        | .ok coll =>
          ({ status := StatusCreated, body := .stack stack }, { db with stackColl := coll })

/-- `GetStacksHandler`: all stacks. -/
def GetStacksHandler {β : Type} : Handler β := fun _ db =>
  ({ status := StatusOK, body := .stackList db.stackColl }, db)

/-- The `$set` update of `EditStackHandler`. -/
def setStack (updatedStack : Stack) (s : Stack) : Stack :=
  { s with Name := updatedStack.Name, Color := updatedStack.Color }

/-- `EditStackHandler`. -/
def EditStackHandler : Handler Stack := fun r db =>
  match ObjectIDFromHex r.id with
  | none => (httpError "Invalid stack ID" StatusBadRequest, db)
  | some stackID =>
    match r.body with
    | none => (httpError "Invalid request body" StatusBadRequest, db)
    | some updatedStack =>
      if updatedStack.Name == "" || updatedStack.Color == "" then
        (httpError "Invalid request body" StatusBadRequest, db)
      else
        let coll := updateOne (fun s => s.ID == stackID) (setStack updatedStack) db.stackColl
        ({ status := StatusOK, body := .stack { updatedStack with ID := stackID } },
         { db with stackColl := coll })

/-- `DeleteStackHandler`. -/
def DeleteStackHandler {β : Type} : Handler β := fun r db =>
  match ObjectIDFromHex r.id with
  | none => (httpError "Invalid stack ID" StatusBadRequest, db)
  | some stackID =>
    ({ status := StatusOK, body := .json "message" "Stack deleted successfully" },
     { db with stackColl := db.stackColl.eraseP (fun s => s.ID == stackID) })

/-! ## User handlers (`internal/handlers/user.go`) -/

/-- The signing key of the package `handlers`. -/
def handlers.jwtKey : String := "my_secret_key"

/-- `Credentials`. -/
structure Credentials where
  Username : String := ""
  Email : String := ""
  Password : String := ""
deriving DecidableEq

/-- The two functions used from `golang.org/x/crypto/bcrypt`:
`GenerateFromPassword` at the default cost (with the salt it draws), and
`CompareHashAndPassword hash password`, true when it returns no error. -/
structure Bcrypt where
  GenerateFromPassword : String → Except String String
  CompareHashAndPassword : String → String → Bool

/-- The document stored by `InsertOne` for a user without identifier. -/
def User.withID (gen : ObjectID) (u : User) : User :=
  if u.ID.IsZero then { u with ID := gen } else u

/-- `RegisterUserHandler`; `gen` is the identifier the driver generates for
the inserted document. -/
def RegisterUserHandler (bcrypt : Bcrypt) (gen : ObjectID) : Handler Credentials := fun r db =>
  match r.body with
  | none => (httpError "Invalid request" StatusBadRequest, db)
  | some creds =>
    match bcrypt.GenerateFromPassword creds.Password with
    | .error _ => (httpError "Could not create user" StatusInternalServerError, db)
    | .ok hashedPassword =>
      let user : User :=
        { ID := NilObjectID, Username := creds.Username, Email := creds.Email,
          Password := hashedPassword }
      match insertOne User.ID db.userColl (user.withID gen) with
      | .error _ => (httpError "Error creating user" StatusInternalServerError, db)
      | .ok coll =>
        ({ status := StatusOK, body := .json "message" "User registered successfully" },
         { db with userColl := coll })

/-- `LoginUserHandler`, run at the time `now` (nanoseconds since the epoch).
Signing with HS256 and a byte-slice key does not fail, so the branch for a
signing error is not taken. -/
def LoginUserHandler (bcrypt : Bcrypt) (hmac : Hmac) (now : Nat) : Handler Credentials :=
  fun r db =>
  match r.body with
  | none => (httpError "Invalid request" StatusBadRequest, db)
  | some creds =>
    match db.userColl.find? (fun u => u.Username == creds.Username) with
    | none => (httpError "User not found" StatusUnauthorized, db)
    | some user =>
      if !bcrypt.CompareHashAndPassword user.Password creds.Password then
        (httpError "Incorrect password" StatusUnauthorized, db)
      else
        let expirationTime := now + day
        let claims : Claims :=
          { UserID := user.ID.Hex, Username := creds.Username,
            StandardClaims := { ExpiresAt := Unix expirationTime } }
        let tokenString := SignedString hmac claims handlers.jwtKey
        ({ status := StatusOK, body := .json "message" "User login successfully",
           cookie := some { Name := "token", Value := tokenString,
                            Expires := some expirationTime } }, db)

/-! ## The auth gate (`internal/middleware/auth.go`) -/

/-- The signing key of the package `middleware`. -/
def middleware.jwtKey : String := "my_secret_key"

/-- `AuthMiddleware`, run at the time `now` (nanoseconds since the epoch). -/
def AuthMiddleware {β : Type} (hmac : Hmac) (now : Nat) (next : Handler β) : Handler β :=
  fun r db =>
  match r.cookie with
  | .error .ErrNoCookie => ({ status := StatusUnauthorized, body := .empty }, db)
  | .error (.other _) => ({ status := StatusBadRequest, body := .empty }, db)
  | .ok cookie =>
    let tokenString := cookie.Value
    match ParseWithClaims hmac now tokenString middleware.jwtKey with
    | (_, some _) => ({ status := StatusUnauthorized, body := .empty }, db)
    | (token, none) =>
      if !token.Valid then ({ status := StatusUnauthorized, body := .empty }, db)
      else next { r with ctxUserID := some token.Claims.UserID } db

/-! ## Sample data -/

/-- A content item of the user `alice`. -/
def sampleItem : Content :=
  { ID := ObjectID.ofNat 1, UserID := "alice", Name := "post", Description := "first",
    Url := "http://a", ImgUrl := "http://a/i.png", Stack := [] }

/-- A second content item, of the user `bob`. -/
def sampleItem2 : Content :=
  { ID := ObjectID.ofNat 2, UserID := "bob", Name := "note", Description := "second",
    Url := "http://b", ImgUrl := "http://b/i.png", Stack := [] }

/-- The stack `go`. -/
def stackGo : Stack := { ID := ObjectID.ofNat 16, Name := "go", Color := "blue" }

/-- The stack `rust`. -/
def stackRust : Stack := { ID := ObjectID.ofNat 17, Name := "rust", Color := "red" }

/-- A database with one stack and two content items. -/
def sampleDB : DB :=
  { userColl := [], stackColl := [stackGo], contentColl := [sampleItem, sampleItem2] }

/-- An update body. -/
def sampleUpdate : Content :=
  { ID := ObjectID.ofNat 9, UserID := "mallory", Name := "post2", Description := "changed",
    Url := "http://c", ImgUrl := "http://c/i.png", Stack := [stackGo] }

/-- A create request body naming the stack `go`. -/
def sampleCreate : CreateContentBody :=
  { Name := "post", Description := "first", Url := "http://a", ImgUrl := "http://a/i.png",
    Stack := some ["go"] }

/-! ## What it means for a token to verify -/

/-- A toy keyed hash for the examples: it adds the lengths of its inputs. -/
def sampleHmac : Hmac := fun alg key input =>
  alg.length + key.length + input.1.length

/-- A user record. -/
def sampleUser : User :=
  { ID := ObjectID.ofNat 7, Username := "alice", Email := "alice@x.com", Password := "h:pw123" }

/-- A toy password hash for the examples: the prefix `h:`. -/
def sampleBcrypt : Bcrypt :=
  { GenerateFromPassword := fun pw => .ok ("h:" ++ pw),
    CompareHashAndPassword := fun hash pw => hash == "h:" ++ pw }

/-- A database with the user `alice`. -/
def sampleUsers : DB := { userColl := [sampleUser], stackColl := [], contentColl := [] }

/-- The claims of the token of `alice` issued at time zero. -/
def sampleClaims : Claims :=
  { UserID := sampleUser.ID.Hex, Username := "alice",
    StandardClaims := { ExpiresAt := Unix day } }

/-- The token of `alice` issued at time zero. -/
def sampleToken : TokenString := SignedString sampleHmac sampleClaims handlers.jwtKey

/-- The login request of `alice`. -/
def sampleLogin : Request Credentials :=
  { body := some { Username := "alice", Email := "", Password := "pw123" } }

/-! ## Sequences of stack requests -/

/-- A request to one of the three handlers that write the stack registry;
a creation comes with the identifier `primitive.NewObjectID()` returns. -/
inductive StackRequest where
  | create (newID : ObjectID) (r : Request Stack)
  | edit (r : Request Stack)
  | delete (r : Request Stack)

/-- The handler a stack request is routed to. -/
def StackRequest.handle : StackRequest → DB → Response × DB
  | .create newID r, db => CreateStackHandler newID r db
  | .edit r, db => EditStackHandler r db
  | .delete r, db => DeleteStackHandler r db

/-- The database after the requests are handled one after the other. -/
def runStackRequests (reqs : List StackRequest) (db : DB) : DB :=
  reqs.foldl (fun d q => (q.handle d).2) db

/-- The statuses answered to the requests handled one after the other. -/
def stackRequestStatuses : List StackRequest → DB → List Nat
  | [], _ => []
  | q :: qs, db => (q.handle db).1.status :: stackRequestStatuses qs (q.handle db).2

/-- No two stacks of the registry, at different positions, share a name. -/
def UniqueNames (coll : List Stack) : Prop :=
  (coll.map Stack.Name).Nodup

/-- The empty database. -/
def emptyDB : DB := { userColl := [], stackColl := [], contentColl := [] }

/-- Create `a`, create `b`, then rename `b` to `a`. -/
def renameToExisting : List StackRequest :=
  [.create (ObjectID.ofNat 1) { body := some { ID := NilObjectID, Name := "a", Color := "red" } },
   .create (ObjectID.ofNat 2) { body := some { ID := NilObjectID, Name := "b", Color := "blue" } },
   .edit { id := (ObjectID.ofNat 2).Hex,
           body := some { ID := NilObjectID, Name := "a", Color := "blue" } }]

/-- A registration request that reuses the username `alice`. -/
def sampleRegister : Request Credentials :=
  { body := some { Username := "alice", Email := "other@x.com", Password := "secret" } }

/-- A login request with a username that is not registered. -/
def loginUnknown : Request Credentials :=
  { body := some { Username := "carol", Email := "", Password := "pw123" } }

/-- A login request of `alice` with a wrong password. -/
def loginWrongPassword : Request Credentials :=
  { body := some { Username := "alice", Email := "", Password := "guess" } }

/-- An edit request for a stack identifier that is not in the sample database. -/
def editAbsent : Request Stack :=
  { id := (ObjectID.ofNat 99).Hex,
    body := some { ID := NilObjectID, Name := "zig", Color := "orange" } }

/-- Create the stack `go`, tag a content item of `alice` with it, then give
the stack another name and colour, then delete it. -/
def editAfterTagging : DB :=
  let db1 := (CreateStackHandler (ObjectID.ofNat 16)
    { body := some { ID := NilObjectID, Name := "go", Color := "blue" } } emptyDB).2
  let db2 := (CreateContentHandler (ObjectID.ofNat 1)
    { ctxUserID := some "alice", body := some sampleCreate } db1).2
  let db3 := (EditStackHandler
    { id := (ObjectID.ofNat 16).Hex,
      body := some { ID := NilObjectID, Name := "golang", Color := "green" } } db2).2
  (DeleteStackHandler ({ id := (ObjectID.ofNat 16).Hex } : Request Unit) db3).2

/-- A token signed under the key of the middleware with the toy hash. -/
def signedSample (payload : ClaimsJSON) : TokenString :=
  .compact "HS256" payload (some (sampleHmac "HS256" "my_secret_key" ("HS256", payload)))

/-- A signed token whose only member has the key `USER_ID` in capitals. -/
def tokenCapitalKey : TokenString :=
  signedSample (.object [("USER_ID", .str "mallory")])

/-- A signed token that gives `user_id` twice. -/
def tokenRepeatedKey : TokenString :=
  signedSample (.object [("user_id", .str "alice"), ("user_id", .str "mallory")])

/-- A signed token whose `exp` is the first integer that does not fit 64 bits. -/
def tokenHugeExp : TokenString :=
  signedSample (.object [("user_id", .str "alice"), ("exp", .num 9223372036854775808)])

/-! ## Identifiers in hexadecimal form -/

theorem fromHexChar_hexDigit : ∀ n : Fin 16, fromHexChar (hexDigit n) = some n := by
  decide

theorem byte_of_digits (b : Fin 256) :
    (Fin.ofNat ((Fin.ofNat (b.val / 16) : Fin 16).val * 16
      + (Fin.ofNat (b.val % 16) : Fin 16).val) : Fin 256) = b := by
  apply Fin.ext
  have hb := b.isLt
  simp only [Fin.ofNat]
  omega

theorem decodeHex_encodeHex (bs : List (Fin 256)) : decodeHex (encodeHex bs) = some bs := by
  induction bs with
  | nil => rfl
  | cons b bs ih =>
    have hstep : encodeHex (b :: bs)
        = hexDigit (Fin.ofNat (b.val / 16)) :: hexDigit (Fin.ofNat (b.val % 16))
            :: encodeHex bs := by
      simp [encodeHex, encodeByte]
    rw [hstep, decodeHex, fromHexChar_hexDigit, fromHexChar_hexDigit, ih]
    simp only [byte_of_digits]

/-- Parsing the hexadecimal form of an identifier gives the identifier back. -/
theorem ObjectIDFromHex_Hex (id : ObjectID) : ObjectIDFromHex id.Hex = some id := by
  unfold ObjectIDFromHex ObjectID.Hex
  simp only [decodeHex_encodeHex]
  simp [id.size]

/-! ## Collections with unique identifiers -/

theorem eq_of_key_eq {α : Type} (key : α → ObjectID) {coll : List α}
    (huniq : UniqueIDs key coll) {x y : α} (hx : x ∈ coll) (hy : y ∈ coll)
    (h : key x = key y) : x = y :=
  List.inj_on_of_nodup_map huniq hx hy h

theorem updateOne_of_no_match {α : Type} (p : α → Bool) (f : α → α) (coll : List α)
    (h : ∀ x ∈ coll, p x = false) : updateOne p f coll = coll := by
  induction coll with
  | nil => rfl
  | cons x xs ih =>
    have hx : p x = false := h x (List.mem_cons_self x xs)
    have hxs : ∀ y ∈ xs, p y = false := fun y hy => h y (List.mem_cons_of_mem x hy)
    simp [updateOne, hx, ih hxs]

theorem map_ite_of_no_match {α : Type} (q : α → Prop) [DecidablePred q] (f : α → α)
    (coll : List α) (h : ∀ x ∈ coll, ¬ q x) :
    coll.map (fun c => if q c then f c else c) = coll := by
  induction coll with
  | nil => rfl
  | cons x xs ih =>
    have hx : ¬ q x := h x (List.mem_cons_self x xs)
    have hxs : ∀ y ∈ xs, ¬ q y := fun y hy => h y (List.mem_cons_of_mem x hy)
    simp [hx, ih hxs]

/-- With unique identifiers, updating the first match of a filter that
selects by identifier rewrites exactly the documents with that identifier. -/
theorem updateOne_eq_map {α : Type} (key : α → ObjectID) (id : ObjectID) (p : α → Bool)
    (f : α → α) (coll : List α) (huniq : UniqueIDs key coll)
    (hp : ∀ x ∈ coll, p x = true ↔ key x = id) :
    updateOne p f coll = coll.map (fun c => if key c = id then f c else c) := by
  induction coll with
  | nil => rfl
  | cons x xs ih =>
    have hnd : (key x ∉ xs.map key) ∧ (xs.map key).Nodup := by
      simpa [UniqueIDs] using huniq
    have hxs : ∀ y ∈ xs, p y = true ↔ key y = id :=
      fun y hy => hp y (List.mem_cons_of_mem x hy)
    by_cases hx : key x = id
    · have hpx : p x = true := (hp x (List.mem_cons_self x xs)).2 hx
      have hno : ∀ y ∈ xs, ¬ key y = id := by
        intro y hy hyid
        exact hnd.1 (List.mem_map.2 ⟨y, hy, by rw [hyid, hx]⟩)
      simp [updateOne, hpx, hx, map_ite_of_no_match (fun c => key c = id) f xs hno]
    · have hpx : p x = false := by
        cases hq : p x with
        | false => rfl
        | true => exact absurd ((hp x (List.mem_cons_self x xs)).1 hq) hx
      simp [updateOne, hpx, hx, ih hnd.2 hxs]

/-- With unique identifiers, deleting the first match of a filter that
selects by identifier removes exactly the documents with that identifier. -/
theorem eraseP_eq_filter {α : Type} (key : α → ObjectID) (id : ObjectID) (p : α → Bool)
    (coll : List α) (huniq : UniqueIDs key coll)
    (hp : ∀ x ∈ coll, p x = true ↔ key x = id) :
    coll.eraseP p = coll.filter (fun c => key c != id) := by
  induction coll with
  | nil => rfl
  | cons x xs ih =>
    have hnd : (key x ∉ xs.map key) ∧ (xs.map key).Nodup := by
      simpa [UniqueIDs] using huniq
    have hxs : ∀ y ∈ xs, p y = true ↔ key y = id :=
      fun y hy => hp y (List.mem_cons_of_mem x hy)
    by_cases hx : key x = id
    · have hpx : p x = true := (hp x (List.mem_cons_self x xs)).2 hx
      have hall : ∀ y ∈ xs, (key y != id) = true := by
        intro y hy
        have : key y ≠ id := fun hyid => hnd.1 (List.mem_map.2 ⟨y, hy, by rw [hyid, hx]⟩)
        simpa using this
      simp [List.eraseP_cons, hpx, hx, List.filter_eq_self.2 hall]
    · have hpx : p x = false := by
        cases hq : p x with
        | false => rfl
        | true => exact absurd ((hp x (List.mem_cons_self x xs)).1 hq) hx
      simp [List.eraseP_cons, hpx, hx, ih hnd.2 hxs]

/-- In a collection with unique identifiers the owner filter for the
identifier of `item` and a user selects `item` when the user owns it. -/
theorem ownerFilter_iff {coll : List Content} (huniq : UniqueIDs Content.ID coll)
    {item : Content} (hmem : item ∈ coll) :
    ∀ x ∈ coll, ownerFilter item.ID item.UserID x = true ↔ x.ID = item.ID := by
  intro x hx
  constructor
  · intro h
    simp [ownerFilter] at h
    exact h.1
  · intro h
    have : x = item := eq_of_key_eq Content.ID huniq hx hmem h
    simp [ownerFilter, this]

/-- A user who does not own `item` finds nothing under its identifier. -/
theorem find_other_user {coll : List Content} (huniq : UniqueIDs Content.ID coll)
    {item : Content} (hmem : item ∈ coll) {B : String} (hne : B ≠ item.UserID) :
    coll.find? (ownerFilter item.ID B) = none := by
  rw [List.find?_eq_none]
  intro x hx h
  simp [ownerFilter] at h
  have : x = item := eq_of_key_eq Content.ID huniq hx hmem h.1
  exact hne (by rw [← h.2, this])

/-- The owner of `item` finds `item` under its identifier. -/
theorem find_owner {coll : List Content} (huniq : UniqueIDs Content.ID coll)
    {item : Content} (hmem : item ∈ coll) :
    coll.find? (ownerFilter item.ID item.UserID) = some item := by
  cases hf : coll.find? (ownerFilter item.ID item.UserID) with
  | none =>
    rw [List.find?_eq_none] at hf
    exact absurd (by simp [ownerFilter]) (hf item hmem)
  | some x =>
    have hx : x ∈ coll := List.mem_of_find?_eq_some hf
    have hp : ownerFilter item.ID item.UserID x = true := List.find?_some hf
    rw [(ownerFilter_iff huniq hmem x hx).1 hp |> eq_of_key_eq Content.ID huniq hx hmem]

/-! ## Ownership of content -/

/-- C1. In a content store with unique identifiers, for a content item `item`
of the store and a caller `B` who is not its owner, `EditContentHandler` and
`DeleteContentHandler` called with the item's identifier answer 404 with the
error `Content not found or unauthorized` and leave the database as it is.
Called by the owner they answer 200: the edit (with a decodable body) puts in
the place of the item the record with its identifier, owner and description
and the name, url, image url and stacks of the body, and the delete leaves
the store without the item, every other document staying in both cases. -/
theorem content_edit_delete_owner_only (db : DB) (item : Content) (B : String)
    (r : Request Content) (upd : Content)
    (huniq : UniqueIDs Content.ID db.contentColl) (hmem : item ∈ db.contentColl)
    (hne : B ≠ item.UserID) :
    EditContentHandler { r with ctxUserID := some B, id := item.ID.Hex } db
        = ({ status := 404, body := .json "error" "Content not found or unauthorized",
             cookie := none }, db)
    ∧ DeleteContentHandler { r with ctxUserID := some B, id := item.ID.Hex } db
        = ({ status := 404, body := .json "error" "Content not found or unauthorized",
             cookie := none }, db)
    ∧ EditContentHandler
          { r with ctxUserID := some item.UserID, id := item.ID.Hex, body := some upd } db
        = ({ status := 200, body := .text "Content updated successfully", cookie := none },
           { userColl := db.userColl, stackColl := db.stackColl,
             contentColl := db.contentColl.map (fun c =>
               if c.ID = item.ID then
                 { ID := c.ID, UserID := c.UserID, Name := upd.Name,
                   Description := c.Description, Url := upd.Url, ImgUrl := upd.ImgUrl,
                   Stack := upd.Stack }
               else c) })
    ∧ ({ ID := item.ID, UserID := item.UserID, Name := upd.Name,
         Description := item.Description, Url := upd.Url, ImgUrl := upd.ImgUrl,
         Stack := upd.Stack } : Content)
        ∈ (EditContentHandler
            { r with ctxUserID := some item.UserID, id := item.ID.Hex, body := some upd }
            db).2.contentColl
    ∧ (∀ c ∈ db.contentColl, c ≠ item →
        c ∈ (EditContentHandler
              { r with ctxUserID := some item.UserID, id := item.ID.Hex, body := some upd }
              db).2.contentColl)
    ∧ DeleteContentHandler { r with ctxUserID := some item.UserID, id := item.ID.Hex } db
        = ({ status := 200, body := .text "Content deleted successfully", cookie := none },
           { userColl := db.userColl, stackColl := db.stackColl,
             contentColl := db.contentColl.filter (fun c => c.ID != item.ID) })
    ∧ item ∉ db.contentColl.filter (fun c => c.ID != item.ID)
    ∧ (∀ c ∈ db.contentColl, c ≠ item →
        c ∈ db.contentColl.filter (fun c => c.ID != item.ID)) := by
  have hB := find_other_user huniq hmem hne
  have hA := find_owner huniq hmem
  have hiff := ownerFilter_iff huniq hmem
  have hedit : EditContentHandler
        { r with ctxUserID := some item.UserID, id := item.ID.Hex, body := some upd } db
      = ({ status := 200, body := .text "Content updated successfully", cookie := none },
         { userColl := db.userColl, stackColl := db.stackColl,
           contentColl := db.contentColl.map (fun c =>
             if c.ID = item.ID then
               { ID := c.ID, UserID := c.UserID, Name := upd.Name,
                 Description := c.Description, Url := upd.Url, ImgUrl := upd.ImgUrl,
                 Stack := upd.Stack }
             else c) }) := by
    simp only [EditContentHandler, getUserIDFromContext, ObjectIDFromHex_Hex, hA, StatusOK]
    rw [updateOne_eq_map Content.ID item.ID _ _ _ huniq hiff]
    rfl
  have hother : ∀ c ∈ db.contentColl, c ≠ item → c.ID ≠ item.ID :=
    fun c hc hci he => hci (eq_of_key_eq Content.ID huniq hc hmem he)
  refine ⟨?_, ?_, hedit, ?_, ?_, ?_, ?_, ?_⟩
  · simp [EditContentHandler, getUserIDFromContext, ObjectIDFromHex_Hex, hB, StatusNotFound,
      handleError]
  · simp [DeleteContentHandler, getUserIDFromContext, ObjectIDFromHex_Hex, hB, StatusNotFound,
      handleError]
  · rw [hedit]
    exact List.mem_map.2 ⟨item, hmem, by simp⟩
  · intro c hc hci
    rw [hedit]
    exact List.mem_map.2 ⟨c, hc, by simp [hother c hc hci]⟩
  · simp only [DeleteContentHandler, getUserIDFromContext, ObjectIDFromHex_Hex, hA, StatusOK]
    rw [eraseP_eq_filter Content.ID item.ID _ _ huniq hiff]
  · simp
  · intro c hc hci
    exact List.mem_filter.2 ⟨hc, by simpa using hother c hc hci⟩

/-- C1 at the sample database: `bob` asks to edit the item of `alice`. -/
theorem content_edit_delete_owner_only_witness :
    EditContentHandler
        { ctxUserID := some "bob", id := sampleItem.ID.Hex, body := some sampleUpdate }
        sampleDB
      = ({ status := 404, body := .json "error" "Content not found or unauthorized",
           cookie := none }, sampleDB) :=
  (content_edit_delete_owner_only sampleDB sampleItem "bob"
    { body := some sampleUpdate } sampleUpdate
    (by unfold UniqueIDs; decide) (by decide) (by decide)).1

/-! ## Resolution of stack names -/

/-- C2, the code at a request that repeats a name.  The registry holds the
stack `go`; the request names `go` twice.  Every requested name is the name
of a stack in the registry, yet `fetchStacks` fails with `one or more stacks
not found`: the query yields each matching stack once, and the count of the
stacks found is compared with the count of the names requested. -/
theorem fetchStacks_repeated_name :
    (∀ n ∈ ["go", "go"], ∃ s ∈ [stackGo], s.Name = n)
    ∧ fetchStacks [stackGo] (some ["go", "go"]) = .error "one or more stacks not found" := by
  decide

/-- Without repetition the same request succeeds. -/
theorem fetchStacks_single_name : fetchStacks [stackGo] (some ["go"]) = .ok [stackGo] := by
  decide

/-- The result of `fetchStacks`, when there is one, is the stacks of the
registry whose name is requested, in registry order, and as many as names. -/
theorem fetchStacks_ok_iff (coll : List Stack) (names : List String) (l : List Stack) :
    fetchStacks coll (some names) = .ok l
      ↔ l = coll.filter (fun s => names.contains s.Name) ∧ l.length = names.length := by
  unfold fetchStacks
  by_cases h : (coll.filter (fun s => names.contains s.Name)).length = names.length
  · simp only [h, bne_self_eq_false, Bool.false_eq_true, if_false, Except.ok.injEq]
    constructor
    · intro hl
      exact ⟨hl.symm, by rw [← hl, h]⟩
    · intro hl
      exact hl.1.symm
  · have hb : ((coll.filter (fun s => names.contains s.Name)).length != names.length) = true := by
      simpa using h
    simp only [hb, if_true]
    constructor
    · intro hl
      cases hl
    · intro hl
      exact absurd (by rw [← hl.1, hl.2]) h

/-! ## Creation of content -/

/-- C3. With the identity `u` in the request context and a decodable body:
when `fetchStacks` fails the handler answers 400 with that error and leaves
the database as it is; when it succeeds (and the generated identifier is not
yet in the collection) the handler answers 201 and the content collection
gains exactly one record, owned by `u`, carrying the name, description, url
and image url of the body and the stacks returned by `fetchStacks`. -/
theorem create_content_spec (gen : ObjectID) (r : Request CreateContentBody) (db : DB)
    (u : String) (requestBody : CreateContentBody)
    (hctx : r.ctxUserID = some u) (hbody : r.body = some requestBody) :
    (∀ err, fetchStacks db.stackColl requestBody.Stack = .error err →
        CreateContentHandler gen r db
          = ({ status := 400, body := .json "error" err, cookie := none }, db))
    ∧ (∀ stackDetails, fetchStacks db.stackColl requestBody.Stack = .ok stackDetails →
        gen ∉ db.contentColl.map Content.ID →
        CreateContentHandler gen r db
          = ({ status := 201, body := .json "message" "Content created successfully" },
             { db with contentColl := db.contentColl ++
                 [{ ID := gen, UserID := u, Name := requestBody.Name,
                    Description := requestBody.Description, Url := requestBody.Url,
                    ImgUrl := requestBody.ImgUrl, Stack := stackDetails }] })) := by
  constructor
  · intro err herr
    simp [CreateContentHandler, getUserIDFromContext, hctx, hbody, herr, StatusBadRequest,
      handleError]
  · intro stackDetails hok hfresh
    have hins : ¬ ∃ a ∈ db.contentColl, a.ID = gen := by
      simpa using hfresh
    simp [CreateContentHandler, getUserIDFromContext, hctx, hbody, hok, createContent,
      Content.withID, ObjectID.IsZero, insertOne, hins, StatusCreated]

/-- C3 at the sample database: `alice` creates content tagged `go`. -/
theorem create_content_spec_witness :
    CreateContentHandler (ObjectID.ofNat 3)
        { ctxUserID := some "alice", body := some sampleCreate } sampleDB
      = ({ status := 201, body := .json "message" "Content created successfully" },
         { sampleDB with contentColl := sampleDB.contentColl ++
             [{ ID := ObjectID.ofNat 3, UserID := "alice", Name := "post",
                Description := "first", Url := "http://a", ImgUrl := "http://a/i.png",
                Stack := [stackGo] }] }) :=
  (create_content_spec (ObjectID.ofNat 3)
    { ctxUserID := some "alice", body := some sampleCreate } sampleDB "alice" sampleCreate
    rfl rfl).2 [stackGo] (by decide) (by decide)

/-! ## Claims through JSON -/

/-- The claims the login handler writes are read back unchanged by the
middleware: the two declarations use the same JSON tags. -/
theorem unmarshal_login_claims (uid uname : String) (exp : Int) (hexp : exp ≠ 0)
    (hfit : -(2 ^ 63) ≤ exp ∧ exp < 2 ^ 63) :
    unmarshalClaims (.object (marshalClaims
        { UserID := uid, Username := uname, StandardClaims := { ExpiresAt := exp } }))
      = some { UserID := uid, Username := uname, StandardClaims := { ExpiresAt := exp } } := by
  have hm : marshalClaims
      { UserID := uid, Username := uname, StandardClaims := { ExpiresAt := exp } }
      = [("user_id", .str uid), ("username", .str uname), ("exp", .num exp)] := by
    simp [marshalClaims, omitStr, omitNum, hexp]
  rw [hm]
  simp +decide only [unmarshalClaims, unmarshalObject, getStr, getNum, scanField, storeStr,
    storeInt64, hfit, and_self, if_true, if_false, Option.bind_eq_bind, Option.some_bind,
    Option.pure_def]

/-! ## The token parser -/

theorem AuthMiddleware_of_parse_ok {β : Type} (hmac : Hmac) (now : Nat) (next : Handler β)
    (r : Request β) (db : DB) (cookie : Cookie) (claims : Claims)
    (hc : r.cookie = .ok cookie)
    (hp : ParseWithClaims hmac now cookie.Value middleware.jwtKey = (⟨claims, true⟩, none)) :
    AuthMiddleware hmac now next r db = next { r with ctxUserID := some claims.UserID } db := by
  simp [AuthMiddleware, hc, hp]

theorem AuthMiddleware_of_parse_error {β : Type} (hmac : Hmac) (now : Nat)
    (next : Handler β) (r : Request β) (db : DB) (cookie : Cookie) (token : Token)
    (e : ValidationError) (hc : r.cookie = .ok cookie)
    (hp : ParseWithClaims hmac now cookie.Value middleware.jwtKey = (token, some e)) :
    AuthMiddleware hmac now next r db = ({ status := 401, body := .empty }, db) := by
  simp [AuthMiddleware, hc, hp, StatusUnauthorized]

/-- The decoder on members the login handler never writes: a key in capitals
names the field, of a repeated key the last member counts, `null` leaves the
field, a number outside 64 bits or a value of the wrong type is an error
wherever it stands, and a `null` payload gives the zero claims. -/
theorem unmarshalClaims_samples :
    unmarshalClaims (.object [("USER_ID", .str "mallory")]) = some { UserID := "mallory" }
    ∧ unmarshalClaims (.object [("user_id", .str "alice"), ("user_id", .str "mallory")])
        = some { UserID := "mallory" }
    ∧ unmarshalClaims (.object [("user_id", .str "alice"), ("User_Id", .null)])
        = some { UserID := "alice" }
    ∧ unmarshalClaims (.object [("exp", .num 9223372036854775808)]) = none
    ∧ unmarshalClaims (.object [("exp", .num 9223372036854775807)])
        = some { StandardClaims := { ExpiresAt := 9223372036854775807 } }
    ∧ unmarshalClaims (.object [("EXP", .str "never"), ("exp", .num 5)]) = none
    ∧ unmarshalClaims (.object [("exp", .other)]) = none
    ∧ unmarshalClaims (.object [("role", .other)]) = some {}
    ∧ unmarshalClaims .null = some {}
    ∧ unmarshalClaims .other = none := by
  decide

/-- The middleware on the three signed sample tokens: with the key in
capitals and with the repeated key the wrapped handler runs for `mallory`;
with the expiry outside 64 bits the answer is 401. -/
theorem AuthMiddleware_samples (next : Handler Unit) (db : DB) :
    AuthMiddleware sampleHmac 5 next { cookie := .ok { Name := "token", Value := tokenCapitalKey } }
        db
      = next { cookie := .ok { Name := "token", Value := tokenCapitalKey },
               ctxUserID := some "mallory" } db
    ∧ AuthMiddleware sampleHmac 5 next
          { cookie := .ok { Name := "token", Value := tokenRepeatedKey } } db
      = next { cookie := .ok { Name := "token", Value := tokenRepeatedKey },
               ctxUserID := some "mallory" } db
    ∧ AuthMiddleware sampleHmac 5 next { cookie := .ok { Name := "token", Value := tokenHugeExp } }
        db
      = ({ status := 401, body := .empty }, db) := by
  have h1 : ParseWithClaims sampleHmac 5 tokenCapitalKey middleware.jwtKey
      = (⟨{ UserID := "mallory" }, true⟩, none) := by decide
  have h2 : ParseWithClaims sampleHmac 5 tokenRepeatedKey middleware.jwtKey
      = (⟨{ UserID := "mallory" }, true⟩, none) := by decide
  have h3 : ParseWithClaims sampleHmac 5 tokenHugeExp middleware.jwtKey
      = (⟨{}, false⟩, some { Malformed := true }) := by decide
  exact ⟨AuthMiddleware_of_parse_ok sampleHmac 5 next _ db _ _ rfl h1,
    AuthMiddleware_of_parse_ok sampleHmac 5 next _ db _ _ rfl h2,
    AuthMiddleware_of_parse_error sampleHmac 5 next _ db _ _ _ rfl h3⟩

/-- The parser on tokens that are refused before or at the signature: text
that is no token and an undecodable payload are malformed, a header without
algorithm or with an unknown one is unverifiable, and a method that takes no
byte-slice key, a wrong signature or an undecodable one is an invalid
signature. -/
theorem ParseWithClaims_samples :
    (ParseWithClaims sampleHmac 5 (.malformed "abc") middleware.jwtKey).2
        = some { Malformed := true }
    ∧ (ParseWithClaims sampleHmac 5 (.compact "HS256" .other (some 0)) middleware.jwtKey).2
        = some { Malformed := true }
    ∧ (ParseWithClaims sampleHmac 5 (.noAlg (.object [])) middleware.jwtKey).2
        = some { Unverifiable := true }
    ∧ (ParseWithClaims sampleHmac 5 (.compact "HS999" (.object []) (some 0)) middleware.jwtKey).2
        = some { Unverifiable := true }
    ∧ (ParseWithClaims sampleHmac 5 (.compact "RS256" (.object []) (some 23)) middleware.jwtKey).2
        = some { SignatureInvalid := true }
    ∧ (ParseWithClaims sampleHmac 5 (.compact "none" (.object []) (some 22)) middleware.jwtKey).2
        = some { SignatureInvalid := true }
    ∧ (ParseWithClaims sampleHmac 5 (.compact "HS256" (.object []) (some 0)) middleware.jwtKey).2
        = some { SignatureInvalid := true }
    ∧ (ParseWithClaims sampleHmac 5 (.compact "HS256" (.object []) none) middleware.jwtKey).2
        = some { SignatureInvalid := true }
    ∧ (ParseWithClaims sampleHmac 5 (.compact "HS512" (.object []) (some 23)) middleware.jwtKey).2
        = none := by
  decide

/-! ## Issued tokens -/

theorem Unix_mono {a b : Nat} (h : a ≤ b) : Unix a ≤ Unix b := by
  unfold Unix
  exact Int.ofNat_le.2 (Nat.div_le_div_right h)

theorem Unix_expiry_pos (issued : Nat) : Unix (issued + day) ≠ 0 := by
  unfold Unix day
  have : 86400 ≤ (issued + 24 * 3600 * 1000000000) / 1000000000 := by omega
  omega

theorem Unix_lt_of_second_later {a b : Nat} (h : a + 1000000000 ≤ b) : Unix a < Unix b := by
  unfold Unix
  have : a / 1000000000 < b / 1000000000 := by omega
  exact Int.ofNat_lt.2 this

/-- What the parser of the middleware makes of a token signed by the login
handler with an expiry time only, one that fits 64 bits: it accepts the token while the Unix time
is at most the expiry, and rejects it as expired afterwards. -/
theorem ParseWithClaims_SignedString (hmac : Hmac) (now : Nat) (uid uname : String)
    (exp : Int) (hexp : exp ≠ 0) (hfit : -(2 ^ 63) ≤ exp ∧ exp < 2 ^ 63) :
    ParseWithClaims hmac now
        (SignedString hmac
          { UserID := uid, Username := uname, StandardClaims := { ExpiresAt := exp } }
          handlers.jwtKey)
        middleware.jwtKey
      = if Unix now ≤ exp then
          (⟨{ UserID := uid, Username := uname, StandardClaims := { ExpiresAt := exp } }, true⟩,
            none)
        else
          (⟨{ UserID := uid, Username := uname, StandardClaims := { ExpiresAt := exp } }, false⟩,
            some { Expired := true }) := by
  have hkey : middleware.jwtKey = handlers.jwtKey := rfl
  have hreg : registeredMethods.contains "HS256" = true := by decide
  have hm : hmacMethods.contains "HS256" = true := by decide
  simp only [ParseWithClaims, SignedString, unmarshal_login_claims uid uname exp hexp hfit,
    hreg, hm, hkey, beq_self_eq_true, Bool.not_true, Bool.false_eq_true, if_false,
    Bool.and_self, if_true]
  by_cases h : Unix now ≤ exp
  · simp [StandardClaims.Valid, ValidationError.valid, verifyExp, verifyIat, verifyNbf, hexp, h]
  · simp [StandardClaims.Valid, ValidationError.valid, verifyExp, verifyIat, verifyNbf, hexp, h]

/-- The cookie a successful login sets. -/
theorem LoginUserHandler_cookie (bcrypt : Bcrypt) (hmac : Hmac) (issued : Nat)
    (r : Request Credentials) (db : DB) (creds : Credentials) (user : User)
    (hbody : r.body = some creds)
    (hfind : db.userColl.find? (fun u => u.Username == creds.Username) = some user)
    (hpw : bcrypt.CompareHashAndPassword user.Password creds.Password = true) :
    LoginUserHandler bcrypt hmac issued r db
      = ({ status := 200, body := .json "message" "User login successfully",
           cookie := some
             { Name := "token",
               Value := SignedString hmac
                 { UserID := user.ID.Hex, Username := creds.Username,
                   StandardClaims := { ExpiresAt := Unix (issued + day) } } handlers.jwtKey,
               Expires := some (issued + day) } }, db) := by
  simp [LoginUserHandler, hbody, hfind, hpw, StatusOK]

/-- C5 as stated fails just after the expiry.  The token of `alice` is issued
at time zero and expires at `day`; one nanosecond after the expiry the
middleware still accepts it and runs the wrapped handler, because both times
are compared in whole Unix seconds. -/
theorem token_accepted_after_expiry :
    (LoginUserHandler sampleBcrypt sampleHmac 0 sampleLogin sampleUsers).1.cookie
        = some { Name := "token", Value := sampleToken, Expires := some (0 + day) }
    ∧ 0 + day < day + 1
    ∧ ParseWithClaims sampleHmac (day + 1) sampleToken middleware.jwtKey
        = (⟨sampleClaims, true⟩, none)
    ∧ AuthMiddleware sampleHmac (day + 1) GetContentHandler
          ({ cookie := .ok { Name := "token", Value := sampleToken, Expires := some (0 + day) } }
            : Request Unit) sampleDB
        = ({ status := 200, body := .contentList [] }, sampleDB) := by
  have hp : ParseWithClaims sampleHmac (day + 1) sampleToken middleware.jwtKey
      = (⟨sampleClaims, true⟩, none) := by decide
  refine ⟨by decide, by decide, hp, ?_⟩
  simp only [AuthMiddleware, hp]
  decide

/-- C5, amended.  A login that succeeds at the time `issued` for the stored
user `user` sets the cookie `token` with expiry `issued + day`, holding the
HS256 token of the claims user id, username and expiry second.  Whenever the
Unix second of the current time is at most the expiry second, in particular
at any time up to the expiry, the middleware, under its own key, accepts that
token with the same user id and username and runs the wrapped handler for
that user id.  Whenever the Unix second of the current time is after the
expiry second, in particular from one second after the expiry on, the parser
rejects the token as expired and the middleware answers 401.  The expiry
second is the `int64` that `time.Time.Unix` returns, so it fits 64 bits
(`hrange`); the decoder of the middleware refuses a number that does not. -/
theorem token_round_trip (bcrypt : Bcrypt) (hmac : Hmac) (issued now : Nat)
    (r : Request Credentials) (db : DB) (creds : Credentials) (user : User)
    (hbody : r.body = some creds)
    (hfind : db.userColl.find? (fun u => u.Username == creds.Username) = some user)
    (hpw : bcrypt.CompareHashAndPassword user.Password creds.Password = true)
    (hrange : Unix (issued + day) ≤ 9223372036854775807) :
    ∃ cookie claims,
      (LoginUserHandler bcrypt hmac issued r db).1.cookie = some cookie
      ∧ cookie.Name = "token" ∧ cookie.Expires = some (issued + day)
      ∧ claims.UserID = user.ID.Hex ∧ claims.Username = creds.Username
      ∧ claims.StandardClaims.ExpiresAt = Unix (issued + day)
      ∧ (Unix now ≤ Unix (issued + day) →
          ParseWithClaims hmac now cookie.Value middleware.jwtKey = (⟨claims, true⟩, none)
          ∧ ∀ (β : Type) (next : Handler β) (r2 : Request β) (db2 : DB),
              r2.cookie = .ok cookie →
              AuthMiddleware hmac now next r2 db2
                = next { r2 with ctxUserID := some user.ID.Hex } db2)
      ∧ (Unix (issued + day) < Unix now →
          ParseWithClaims hmac now cookie.Value middleware.jwtKey
            = (⟨claims, false⟩, some { Expired := true })
          ∧ ∀ (β : Type) (next : Handler β) (r2 : Request β) (db2 : DB),
              r2.cookie = .ok cookie →
              AuthMiddleware hmac now next r2 db2
                = ({ status := 401, body := .empty }, db2))
      ∧ (now ≤ issued + day → Unix now ≤ Unix (issued + day))
      ∧ (issued + day + 1000000000 ≤ now → Unix (issued + day) < Unix now) := by
  have hnonneg : (0 : Int) ≤ Unix (issued + day) := Int.ofNat_nonneg _
  have hparse := ParseWithClaims_SignedString hmac now user.ID.Hex creds.Username
    (Unix (issued + day)) (Unix_expiry_pos issued) ⟨by omega, by omega⟩
  refine ⟨{ Name := "token",
            Value := SignedString hmac
              { UserID := user.ID.Hex, Username := creds.Username,
                StandardClaims := { ExpiresAt := Unix (issued + day) } } handlers.jwtKey,
            Expires := some (issued + day) },
          { UserID := user.ID.Hex, Username := creds.Username,
            StandardClaims := { ExpiresAt := Unix (issued + day) } },
          ?_, rfl, rfl, rfl, rfl, rfl, ?_, ?_, Unix_mono, Unix_lt_of_second_later⟩
  · rw [LoginUserHandler_cookie bcrypt hmac issued r db creds user hbody hfind hpw]
  · intro h
    rw [if_pos h] at hparse
    refine ⟨hparse, ?_⟩
    intro β next r2 db2 hc
    exact AuthMiddleware_of_parse_ok hmac now next r2 db2 _ _ hc hparse
  · intro h
    rw [if_neg (not_le.2 h)] at hparse
    refine ⟨hparse, ?_⟩
    intro β next r2 db2 hc
    exact AuthMiddleware_of_parse_error hmac now next r2 db2 _ _ _ hc hparse

/-- C5, amended, at the login of `alice` at time zero, read one hour later. -/
theorem token_round_trip_witness :
    ∃ cookie claims,
      (LoginUserHandler sampleBcrypt sampleHmac 0 sampleLogin sampleUsers).1.cookie
        = some cookie
      ∧ claims.UserID = sampleUser.ID.Hex ∧ claims.Username = "alice"
      ∧ ParseWithClaims sampleHmac 3600000000000 cookie.Value middleware.jwtKey
          = (⟨claims, true⟩, none) := by
  obtain ⟨cookie, claims, h1, -, -, h2, h3, -, h5, -, h7, -⟩ :=
    token_round_trip sampleBcrypt sampleHmac 0 3600000000000 sampleLogin sampleUsers
      { Username := "alice", Email := "", Password := "pw123" } sampleUser
      rfl (by decide) (by decide) (by decide)
  exact ⟨cookie, claims, h1, h2, h3, (h5 (h7 (by decide))).1⟩

/-! ## The stack registry -/

/-- C6. For a decodable create request: with an empty name or colour the
answer is 400 and the database is unchanged; with both set and a stack of
exactly that name in the registry the answer is 409 and the database is
unchanged; with both set and no stack of that name (the new identifier not
being in the registry) the answer is 201, the registry gains exactly the
stack of that name, colour and identifier, and `GetStacksHandler` lists it.
An answer 201 is only given when the identifier is new to the registry. -/
theorem create_stack_spec (newID : ObjectID) (r : Request Stack) (db : DB) (stack : Stack)
    (hbody : r.body = some stack) :
    ((stack.Name = "" ∨ stack.Color = "") →
        CreateStackHandler newID r db
          = ({ status := 400, body := .text "Invalid request body\n", cookie := none }, db))
    ∧ (stack.Name ≠ "" → stack.Color ≠ "" → (∃ s ∈ db.stackColl, s.Name = stack.Name) →
        CreateStackHandler newID r db
          = ({ status := 409,
               body := .json "message" "Stack with the same name already exists" }, db))
    ∧ (stack.Name ≠ "" → stack.Color ≠ "" → (∀ s ∈ db.stackColl, s.Name ≠ stack.Name) →
        newID ∉ db.stackColl.map Stack.ID →
        CreateStackHandler newID r db
          = ({ status := 201,
               body := .stack { ID := newID, Name := stack.Name, Color := stack.Color } },
             { db with stackColl := db.stackColl ++
                 [{ ID := newID, Name := stack.Name, Color := stack.Color }] })
        ∧ ∃ l, (GetStacksHandler r (CreateStackHandler newID r db).2).1
                  = { status := 200, body := .stackList l }
            ∧ { ID := newID, Name := stack.Name, Color := stack.Color } ∈ l)
    ∧ ((CreateStackHandler newID r db).1.status = 201 →
        newID ∉ db.stackColl.map Stack.ID) := by
  refine ⟨?_, ?_, ?_, ?_⟩
  · intro h
    have hline : "Invalid request body" ++ "\n" = "Invalid request body\n" := by decide
    rcases h with h | h <;>
      simp [CreateStackHandler, hbody, h, StatusBadRequest, httpError, hline]
  · rintro hn hc ⟨s, hs, hsn⟩
    cases hf : db.stackColl.find? (fun s => s.Name == stack.Name) with
    | none =>
      rw [List.find?_eq_none] at hf
      exact absurd (by simpa using hsn) (hf s hs)
    | some t => simp [CreateStackHandler, hbody, hn, hc, hf, StatusConflict]
  · intro hn hc hnone hfresh
    have hf : db.stackColl.find? (fun s => s.Name == stack.Name) = none := by
      rw [List.find?_eq_none]
      intro s hs
      simpa using hnone s hs
    have hins : ¬ ∃ a ∈ db.stackColl, a.ID = newID := by
      simpa using hfresh
    have heq : CreateStackHandler newID r db
        = ({ status := 201,
             body := .stack { ID := newID, Name := stack.Name, Color := stack.Color } },
           { db with stackColl := db.stackColl ++
               [{ ID := newID, Name := stack.Name, Color := stack.Color }] }) := by
      simp [CreateStackHandler, hbody, hn, hc, hf, insertOne, hins, StatusCreated]
    refine ⟨heq, db.stackColl ++ [{ ID := newID, Name := stack.Name, Color := stack.Color }],
      ?_, by simp⟩
    rw [heq]
    simp [GetStacksHandler, StatusOK]
  · intro hst
    by_cases hmem : newID ∈ db.stackColl.map Stack.ID
    · exfalso
      have hins : ∃ a ∈ db.stackColl, a.ID = newID := by
        simpa using hmem
      revert hst
      simp only [CreateStackHandler, hbody]
      split
      · simp [httpError, StatusBadRequest]
      · split
        · simp [StatusConflict]
        · simp [insertOne, hins, httpError, StatusInternalServerError]
    · exact hmem

/-- C6 at the sample database: the stack `rust` is created. -/
theorem create_stack_spec_witness :
    CreateStackHandler (ObjectID.ofNat 17)
        { body := some { ID := NilObjectID, Name := "rust", Color := "red" } } sampleDB
      = ({ status := 201, body := .stack stackRust },
         { sampleDB with stackColl := [stackGo, stackRust] }) :=
  ((create_stack_spec (ObjectID.ofNat 17)
      { body := some { ID := NilObjectID, Name := "rust", Color := "red" } } sampleDB
      { ID := NilObjectID, Name := "rust", Color := "red" } rfl).2.2.1
    (by decide) (by decide) (by decide) (by decide)).1

/-! ## Uniqueness of stack names -/

/-- C7, the code on three requests in a row from the empty registry: create
`a`, create `b`, edit `b` to the name `a`.  All three succeed, and the
registry ends with two stacks named `a`; `EditStackHandler` does not look for
a stack of the new name as `CreateStackHandler` does. -/
theorem rename_breaks_unique_names :
    stackRequestStatuses renameToExisting emptyDB = [201, 201, 200]
    ∧ (runStackRequests renameToExisting emptyDB).stackColl
        = [{ ID := ObjectID.ofNat 1, Name := "a", Color := "red" },
           { ID := ObjectID.ofNat 2, Name := "a", Color := "blue" }]
    ∧ (∃ s ∈ (runStackRequests renameToExisting emptyDB).stackColl,
        ∃ t ∈ (runStackRequests renameToExisting emptyDB).stackColl,
          s ≠ t ∧ s.Name = t.Name)
    ∧ ¬ UniqueNames (runStackRequests renameToExisting emptyDB).stackColl := by
  refine ⟨by decide, by decide, by decide, ?_⟩
  unfold UniqueNames
  decide

/-- `CreateStackHandler` keeps the names of the registry distinct. -/
theorem create_keeps_unique_names (newID : ObjectID) (r : Request Stack) (db : DB)
    (h : UniqueNames db.stackColl) : UniqueNames (CreateStackHandler newID r db).2.stackColl := by
  cases hb : r.body with
  | none => simpa [CreateStackHandler, hb] using h
  | some stack =>
    by_cases he : stack.Name = "" ∨ stack.Color = ""
    · simpa [CreateStackHandler, hb, he] using h
    · cases hf : db.stackColl.find? (fun s => s.Name == stack.Name) with
      | some t => simpa [CreateStackHandler, hb, he, hf] using h
      | none =>
        by_cases hc : ∃ a ∈ db.stackColl, a.ID = newID
        · simpa [CreateStackHandler, hb, he, hf, insertOne, hc] using h
        · rw [List.find?_eq_none] at hf
          have hname : stack.Name ∉ db.stackColl.map Stack.Name := by
            intro hn
            obtain ⟨s, hs, hsn⟩ := List.mem_map.1 hn
            exact hf s hs (by simp [hsn])
          have hnd : (db.stackColl.map Stack.Name ++ [stack.Name]).Nodup :=
            List.Nodup.append h (List.nodup_singleton _)
              (fun n hn hn2 => hname (by rwa [List.mem_singleton.1 hn2] at hn))
          have hf2 : db.stackColl.find? (fun s => s.Name == stack.Name) = none :=
            List.find?_eq_none.2 hf
          simpa [CreateStackHandler, hb, he, hf2, insertOne, hc, UniqueNames] using hnd

/-- `DeleteStackHandler` keeps the names of the registry distinct. -/
theorem delete_keeps_unique_names {β : Type} (r : Request β) (db : DB)
    (h : UniqueNames db.stackColl) : UniqueNames (DeleteStackHandler r db).2.stackColl := by
  unfold DeleteStackHandler
  split
  · exact h
  · exact List.Nodup.sublist ((List.eraseP_sublist _).map Stack.Name) h

/-! ## Registration and login -/

/-- C8 as stated fails.  The user store holds `alice`; a registration with
the username `alice` is answered 200 and a second user `alice` is stored. -/
theorem register_existing_username :
    (∃ u ∈ sampleUsers.userColl, u.Username = "alice")
    ∧ RegisterUserHandler sampleBcrypt (ObjectID.ofNat 8) sampleRegister sampleUsers
        = ({ status := 200, body := .json "message" "User registered successfully" },
           { sampleUsers with userColl :=
               [sampleUser,
                { ID := ObjectID.ofNat 8, Username := "alice", Email := "other@x.com",
                  Password := "h:secret" }] }) := by
  decide

/-- C8, amended.  For a user store that already holds a user with the
username of the request, `RegisterUserHandler` (the password hashes and the
generated identifier is new) answers 200 and appends a user with that
username, the email of the request and the hash; the store then holds the
username twice.  There is no check for an existing username. -/
theorem register_appends_user (bcrypt : Bcrypt) (gen : ObjectID) (r : Request Credentials)
    (db : DB) (creds : Credentials) (hashedPassword : String)
    (hbody : r.body = some creds)
    (hhash : bcrypt.GenerateFromPassword creds.Password = .ok hashedPassword)
    (hfresh : gen ∉ db.userColl.map User.ID)
    (hdup : ∃ u ∈ db.userColl, u.Username = creds.Username) :
    RegisterUserHandler bcrypt gen r db
      = ({ status := 200, body := .json "message" "User registered successfully" },
         { db with userColl := db.userColl ++
             [{ ID := gen, Username := creds.Username, Email := creds.Email,
                Password := hashedPassword }] })
    ∧ ¬ ((RegisterUserHandler bcrypt gen r db).2.userColl.map User.Username).Nodup := by
  have hins : ¬ ∃ a ∈ db.userColl, a.ID = gen := by
    simpa using hfresh
  have heq : RegisterUserHandler bcrypt gen r db
      = ({ status := 200, body := .json "message" "User registered successfully" },
         { db with userColl := db.userColl ++
             [{ ID := gen, Username := creds.Username, Email := creds.Email,
                Password := hashedPassword }] }) := by
    simp [RegisterUserHandler, hbody, hhash, User.withID, ObjectID.IsZero, insertOne, hins,
      StatusOK]
  refine ⟨heq, ?_⟩
  rw [heq]
  obtain ⟨u, hu, hun⟩ := hdup
  intro hnd
  simp only [List.map_append, List.map_cons, List.map_nil] at hnd
  have hdisj := (List.nodup_append.1 hnd).2.2
  exact hdisj (List.mem_map.2 ⟨u, hu, hun⟩) (List.mem_singleton.2 rfl)

/-- C8, amended, at the sample user store. -/
theorem register_appends_user_witness :
    (RegisterUserHandler sampleBcrypt (ObjectID.ofNat 8) sampleRegister sampleUsers).1.status
      = 200 := by
  rw [(register_appends_user sampleBcrypt (ObjectID.ofNat 8) sampleRegister sampleUsers
    { Username := "alice", Email := "other@x.com", Password := "secret" } "h:secret"
    rfl rfl (by decide) (by decide)).1]

/-- C9 as stated fails.  At the sample user store the answer to an unknown
username and the answer to a wrong password have different bodies. -/
theorem login_failures_differ :
    LoginUserHandler sampleBcrypt sampleHmac 0 loginUnknown sampleUsers
        = (httpError "User not found" 401, sampleUsers)
    ∧ LoginUserHandler sampleBcrypt sampleHmac 0 loginWrongPassword sampleUsers
        = (httpError "Incorrect password" 401, sampleUsers)
    ∧ (LoginUserHandler sampleBcrypt sampleHmac 0 loginUnknown sampleUsers).1
        ≠ (LoginUserHandler sampleBcrypt sampleHmac 0 loginWrongPassword sampleUsers).1 := by
  decide

/-- C9, amended.  A login with a username that is not registered and a login
with a registered username and a password that does not match are both
answered 401 without a cookie and leave the database as it is; the bodies
differ, `User not found` for the first and `Incorrect password` for the
second. -/
theorem login_failure_responses (bcrypt : Bcrypt) (hmac : Hmac) (now : Nat) (db : DB)
    (r1 r2 : Request Credentials) (c1 c2 : Credentials) (user : User)
    (h1 : r1.body = some c1) (h2 : r2.body = some c2)
    (hnone : db.userColl.find? (fun u => u.Username == c1.Username) = none)
    (hsome : db.userColl.find? (fun u => u.Username == c2.Username) = some user)
    (hpw : bcrypt.CompareHashAndPassword user.Password c2.Password = false) :
    LoginUserHandler bcrypt hmac now r1 db = (httpError "User not found" 401, db)
    ∧ LoginUserHandler bcrypt hmac now r2 db = (httpError "Incorrect password" 401, db)
    ∧ (httpError "User not found" 401).status = (httpError "Incorrect password" 401).status
    ∧ (httpError "User not found" 401).cookie = none
    ∧ (httpError "Incorrect password" 401).cookie = none
    ∧ (httpError "User not found" 401).body = .text "User not found\n"
    ∧ (httpError "Incorrect password" 401).body = .text "Incorrect password\n"
    ∧ (httpError "User not found" 401).body ≠ (httpError "Incorrect password" 401).body := by
  refine ⟨?_, ?_, by decide, by decide, by decide, by decide, by decide, by decide⟩
  · simp only [LoginUserHandler, h1, hnone, StatusUnauthorized]
  · simp only [LoginUserHandler, h2, hsome, hpw, StatusUnauthorized]
    simp

/-- C9, amended, at the sample user store. -/
theorem login_failure_responses_witness :
    LoginUserHandler sampleBcrypt sampleHmac 0 loginWrongPassword sampleUsers
      = (httpError "Incorrect password" 401, sampleUsers) :=
  (login_failure_responses sampleBcrypt sampleHmac 0 sampleUsers loginUnknown
    loginWrongPassword { Username := "carol", Email := "", Password := "pw123" }
    { Username := "alice", Email := "", Password := "guess" } sampleUser
    rfl rfl (by decide) (by decide) (by decide)).2.1

/-! ## Editing a stack that is not there -/

/-- C10 as stated fails.  The sample registry has no stack with the
identifier of the request, the name and colour are set, and the answer is 200
with the stack of the request as body; the database is unchanged. -/
theorem edit_absent_stack_answers_ok :
    ObjectIDFromHex editAbsent.id = some (ObjectID.ofNat 99)
    ∧ ObjectID.ofNat 99 ∉ sampleDB.stackColl.map Stack.ID
    ∧ EditStackHandler editAbsent sampleDB
        = ({ status := 200,
             body := .stack { ID := ObjectID.ofNat 99, Name := "zig", Color := "orange" } },
           sampleDB) := by
  decide

/-- C10, amended.  For an identifier that parses and is not in the registry
and a body with name and colour set, `EditStackHandler` answers 200 with the
stack of the requested identifier, name and colour as body, and leaves the
database unchanged. -/
theorem edit_absent_stack (r : Request Stack) (db : DB) (stackID : ObjectID)
    (updatedStack : Stack)
    (hid : ObjectIDFromHex r.id = some stackID) (hbody : r.body = some updatedStack)
    (hname : updatedStack.Name ≠ "") (hcolor : updatedStack.Color ≠ "")
    (habsent : stackID ∉ db.stackColl.map Stack.ID) :
    EditStackHandler r db
      = ({ status := 200,
           body := .stack { ID := stackID, Name := updatedStack.Name,
                            Color := updatedStack.Color } }, db) := by
  have hno : ∀ s ∈ db.stackColl, (fun s : Stack => s.ID == stackID) s = false := by
    intro s hs
    have : s.ID ≠ stackID := fun h => habsent (List.mem_map.2 ⟨s, hs, h⟩)
    simpa using this
  have hupd := updateOne_of_no_match (fun s : Stack => s.ID == stackID)
    (setStack updatedStack) db.stackColl hno
  simp only [EditStackHandler, hid, hbody]
  simp [hname, hcolor, hupd, StatusOK]

/-- C10, amended, at the sample database. -/
theorem edit_absent_stack_witness :
    EditStackHandler editAbsent sampleDB
      = ({ status := 200,
           body := .stack { ID := ObjectID.ofNat 99, Name := "zig", Color := "orange" } },
         sampleDB) :=
  edit_absent_stack editAbsent sampleDB (ObjectID.ofNat 99)
    { ID := NilObjectID, Name := "zig", Color := "orange" }
    (by decide) rfl (by decide) (by decide) (by decide)

/-! ## Resolution of stack names without repetition -/

/-- The count of the stacks found is the count of the requested names that
exist, when neither the registry names nor the requested names repeat. -/
theorem found_count (coll : List Stack) (names : List String)
    (hu : UniqueNames coll) (hn : names.Nodup) :
    (coll.filter (fun s => names.contains s.Name)).length
      = (names.filter (fun n => (coll.map Stack.Name).contains n)).length := by
  have h1 : (coll.filter (fun s => names.contains s.Name)).length
      = ((coll.map Stack.Name).filter (fun n => names.contains n)).length := by
    rw [List.filter_map, List.length_map]
    rfl
  rw [h1]
  apply List.Perm.length_eq
  rw [List.perm_ext_iff_of_nodup (hu.filter _) (hn.filter _)]
  intro a
  simp only [List.mem_filter, List.elem_eq_mem, decide_eq_true_eq]
  exact And.comm

/-- When no name is requested twice and no two stacks of the registry share
a name, `fetchStacks` succeeds exactly when every requested name is the name
of a stack in the registry, and then returns as many records as names. -/
theorem fetchStacks_without_repetition (coll : List Stack) (names : List String)
    (hu : UniqueNames coll) (hn : names.Nodup) :
    ((∃ l, fetchStacks coll (some names) = .ok l ∧ l.length = names.length)
        ↔ ∀ n ∈ names, ∃ s ∈ coll, s.Name = n)
    ∧ ((∃ n ∈ names, ∀ s ∈ coll, s.Name ≠ n) →
        fetchStacks coll (some names) = .error "one or more stacks not found") := by
  have hcount := found_count coll names hu hn
  have hall : (coll.filter (fun s => names.contains s.Name)).length = names.length
      ↔ ∀ n ∈ names, ∃ s ∈ coll, s.Name = n := by
    rw [hcount, List.filter_length_eq_length]
    simp
  constructor
  · constructor
    · rintro ⟨l, hl, -⟩
      have := (fetchStacks_ok_iff coll names l).1 hl
      exact hall.1 (by rw [← this.1]; exact this.2)
    · intro h
      exact ⟨_, (fetchStacks_ok_iff coll names _).2 ⟨rfl, hall.2 h⟩, hall.2 h⟩
  · rintro ⟨n, hnm, hno⟩
    have hlen : ¬ (coll.filter (fun s => names.contains s.Name)).length = names.length := by
      intro h
      obtain ⟨s, hs, hsn⟩ := hall.1 h n hnm
      exact hno s hs hsn
    have hb : ((coll.filter (fun s => names.contains s.Name)).length != names.length) = true := by
      simpa using hlen
    simp only [fetchStacks, hb, if_true]

/-! ## Stack snapshots in content -/

/-- C11. Whatever the request and whatever its outcome, `EditStackHandler`
and `DeleteStackHandler` leave the content collection (and the user
collection) exactly as they found it; so every content item of the store is
still there with the embedded stacks, names and colours it had. -/
theorem stack_writes_keep_content {β : Type} (r : Request Stack) (r2 : Request β) (db : DB) :
    (EditStackHandler r db).2.contentColl = db.contentColl
    ∧ (EditStackHandler r db).2.userColl = db.userColl
    ∧ (DeleteStackHandler r2 db).2.contentColl = db.contentColl
    ∧ (DeleteStackHandler r2 db).2.userColl = db.userColl
    ∧ (∀ c ∈ db.contentColl,
        ∃ c2 ∈ (EditStackHandler r db).2.contentColl, c2 = c ∧ c2.Stack = c.Stack)
    ∧ (∀ c ∈ db.contentColl,
        ∃ c2 ∈ (DeleteStackHandler r2 db).2.contentColl, c2 = c ∧ c2.Stack = c.Stack) := by
  have hedit : (EditStackHandler r db).2.contentColl = db.contentColl
      ∧ (EditStackHandler r db).2.userColl = db.userColl := by
    unfold EditStackHandler
    cases ObjectIDFromHex r.id with
    | none => exact ⟨rfl, rfl⟩
    | some stackID =>
      cases r.body with
      | none => exact ⟨rfl, rfl⟩
      | some updatedStack =>
        by_cases he : (updatedStack.Name == "" || updatedStack.Color == "") = true
        · simp only [if_pos he]
          exact ⟨trivial, trivial⟩
        · simp only [if_neg he]
          exact ⟨trivial, trivial⟩
  have hdel : (DeleteStackHandler r2 db).2.contentColl = db.contentColl
      ∧ (DeleteStackHandler r2 db).2.userColl = db.userColl := by
    unfold DeleteStackHandler
    cases ObjectIDFromHex r2.id with
    | none => exact ⟨rfl, rfl⟩
    | some stackID => exact ⟨rfl, rfl⟩
  refine ⟨hedit.1, hedit.2, hdel.1, hdel.2, ?_, ?_⟩
  · intro c hc
    exact ⟨c, by rw [hedit.1]; exact hc, rfl, rfl⟩
  · intro c hc
    exact ⟨c, by rw [hdel.1]; exact hc, rfl, rfl⟩

/-- The scenario of the snapshot: the content item tagged with `go` keeps the
stack `go`, `blue` after the stack was renamed and then deleted. -/
theorem snapshot_survives_edit_and_delete :
    editAfterTagging.stackColl = []
    ∧ editAfterTagging.contentColl
        = [{ ID := ObjectID.ofNat 1, UserID := "alice", Name := "post",
             Description := "first", Url := "http://a", ImgUrl := "http://a/i.png",
             Stack := [{ ID := ObjectID.ofNat 16, Name := "go", Color := "blue" }] }] := by
  decide

/-! ## What an edit of content changes -/

/-- C12. In a content store with unique identifiers, for an item owned by
the caller and a decodable body, `EditContentHandler` answers 200 and the
store it leaves is the old one with the item replaced, in place, by the
record that has the identifier, owner and description of the item and the
name, url, image url and stack list of the body.  The stack list is the one
of the body whatever the stack registry holds; the identifier, owner and
description of the body are ignored; every other document, and the user and
stack collections, stay as they are. -/
theorem edit_content_frame (r : Request Content) (db : DB) (item updatedContent : Content)
    (huniq : UniqueIDs Content.ID db.contentColl) (hmem : item ∈ db.contentColl)
    (hctx : r.ctxUserID = some item.UserID) (hid : ObjectIDFromHex r.id = some item.ID)
    (hbody : r.body = some updatedContent) :
    EditContentHandler r db
      = ({ status := 200, body := .text "Content updated successfully" },
         { userColl := db.userColl, stackColl := db.stackColl,
           contentColl := db.contentColl.map (fun c =>
             if c = item then
               { ID := item.ID, UserID := item.UserID, Name := updatedContent.Name,
                 Description := item.Description, Url := updatedContent.Url,
                 ImgUrl := updatedContent.ImgUrl, Stack := updatedContent.Stack }
             else c) })
    ∧ (∀ c ∈ db.contentColl, c ≠ item → c ∈ (EditContentHandler r db).2.contentColl)
    ∧ ({ ID := item.ID, UserID := item.UserID, Name := updatedContent.Name,
         Description := item.Description, Url := updatedContent.Url,
         ImgUrl := updatedContent.ImgUrl, Stack := updatedContent.Stack } : Content)
        ∈ (EditContentHandler r db).2.contentColl
    ∧ (EditContentHandler r db).2.contentColl.length = db.contentColl.length := by
  have hA := find_owner huniq hmem
  have hiff := ownerFilter_iff huniq hmem
  have hmap : db.contentColl.map (fun c => if c.ID = item.ID then setContent updatedContent c else c)
      = db.contentColl.map (fun c =>
          if c = item then
            { ID := item.ID, UserID := item.UserID, Name := updatedContent.Name,
              Description := item.Description, Url := updatedContent.Url,
              ImgUrl := updatedContent.ImgUrl, Stack := updatedContent.Stack }
          else c) := by
    apply List.map_congr_left
    intro c hc
    by_cases h : c = item
    · subst h
      simp [setContent]
    · have hne : c.ID ≠ item.ID := fun he => h (eq_of_key_eq Content.ID huniq hc hmem he)
      simp [h, hne]
  have heq : EditContentHandler r db
      = ({ status := 200, body := .text "Content updated successfully" },
         { userColl := db.userColl, stackColl := db.stackColl,
           contentColl := db.contentColl.map (fun c =>
             if c = item then
               { ID := item.ID, UserID := item.UserID, Name := updatedContent.Name,
                 Description := item.Description, Url := updatedContent.Url,
                 ImgUrl := updatedContent.ImgUrl, Stack := updatedContent.Stack }
             else c) }) := by
    simp only [EditContentHandler, getUserIDFromContext, hctx, hid, hA, hbody, StatusOK]
    rw [updateOne_eq_map Content.ID item.ID _ _ _ huniq hiff, hmap]
  refine ⟨heq, ?_, ?_, ?_⟩
  · intro c hc hne
    rw [heq]
    exact List.mem_map.2 ⟨c, hc, by simp [hne]⟩
  · rw [heq]
    exact List.mem_map.2 ⟨item, hmem, by simp⟩
  · rw [heq]
    simp

/-- C12 at the sample database: `alice` edits her item with a body that
carries another identifier, owner and description. -/
theorem edit_content_frame_witness :
    (EditContentHandler
        { ctxUserID := some "alice", id := sampleItem.ID.Hex, body := some sampleUpdate }
        sampleDB).2.contentColl
      = [{ ID := ObjectID.ofNat 1, UserID := "alice", Name := "post2", Description := "first",
           Url := "http://c", ImgUrl := "http://c/i.png", Stack := [stackGo] },
         sampleItem2] := by
  rw [(edit_content_frame
    { ctxUserID := some "alice", id := sampleItem.ID.Hex, body := some sampleUpdate }
    sampleDB sampleItem sampleUpdate (by unfold UniqueIDs; decide) (by decide) rfl
    (by decide) rfl).1]
  decide

end Cms
